import Mathlib

/-!
Verification development for the binary-XML core of the android-introspection
repository (`binary_xml.cpp` and its visitor headers).

The byte buffer is modelled as a `List Nat` of octets; every memory access of
the C++ source (`readBytesAtIndex`, `std::vector::operator[]` on the string
pool, pointer reads through the header struct) is modelled as a fallible read
returning `Option`: a `none` result marks an access that is out of bounds in
the source, i.e. undefined behavior there.  All multi-byte reads are
little-endian, as in the source.
-/

set_option maxRecDepth 40000

/-- Read one byte. Mirrors a single `uint8_t` access at index `i`; `none` means
the access is out of bounds (undefined behavior in the C++). -/
def readU8 (b : List Nat) (i : Nat) : Option Nat :=
  match b[i]? with
  | none => none
  | some x => some (x % 256)

/-- Little-endian 16-bit read, as `readBytesAtIndex<uint16_t>` does via memcpy. -/
def readU16 (b : List Nat) (i : Nat) : Option Nat :=
  match readU8 b i, readU8 b (i + 1) with
  | some lo, some hi => some (lo + 256 * hi)
  | _, _ => none

/-- Little-endian 32-bit read, as `readBytesAtIndex<uint32_t>` does via memcpy. -/
def readU32 (b : List Nat) (i : Nat) : Option Nat :=
  match readU8 b i, readU8 b (i + 1), readU8 b (i + 2), readU8 b (i + 3) with
  | some b0, some b1, some b2, some b3 =>
      some (b0 + 256 * b1 + 65536 * b2 + 16777216 * b3)
  | _, _, _, _ => none

/-- Reinterpret a 32-bit unsigned value as the `int32_t` the source casts it to. -/
def asI32 (n : Nat) : Int :=
  if n < 2147483648 then (n : Int) else (n : Int) - 4294967296

/- Constants of the binary-XML format.  The repository keeps them in
`resource_types.h` (not part of the sources here); the values are the Android
`ResourceTypes.h` constants, the ones the spec records in its interface
section: XML magic `0x00080003`, string-pool chunk id `0x0001`, UTF-8 flag bit
`1 <<< 8`, chunk tags `0x0100..0x0104` and `0x0180`, boolean raw values
all-ones and zero. -/

def XML_IDENTIFIER : Nat := 524291
def XML_STRING_TABLE : Nat := 1
def RES_FLAG_UTF8 : Nat := 256
def RES_XML_START_NAMESPACE_TYPE : Nat := 256
def RES_XML_END_NAMESPACE_TYPE : Nat := 257
def RES_XML_START_ELEMENT_TYPE : Nat := 258
def RES_XML_END_ELEMENT_TYPE : Nat := 259
def RES_XML_CDATA_TYPE : Nat := 260
def RES_XML_RESOURCE_MAP_TYPE : Nat := 384
def XML_ATTRS_MARKER : Nat := 1310740
def TYPE_NULL : Nat := 0
def TYPE_REFERENCE : Nat := 1
def TYPE_ATTRIBUTE : Nat := 2
def TYPE_STRING : Nat := 3
def TYPE_FLOAT : Nat := 4
def TYPE_DIMENSION : Nat := 5
def TYPE_FRACTION : Nat := 6
def TYPE_DYNAMIC_REFERENCE : Nat := 7
def TYPE_INT_DEC : Nat := 16
def TYPE_INT_HEX : Nat := 17
def TYPE_INT_BOOLEAN : Nat := 18
def RES_VALUE_TRUE : Nat := 4294967295
def RES_VALUE_FALSE : Nat := 0

/-- The UTF-8 test of `readStrings`: `(flags & RES_FLAG_UTF8) == RES_FLAG_UTF8`. -/
def utf8Of (flags : Nat) : Bool := flags &&& RES_FLAG_UTF8 == RES_FLAG_UTF8

/-- Read `n` consecutive bytes starting at `i` (payload of a UTF-8 pool entry). -/
def readBytesList (b : List Nat) (i : Nat) : Nat → Option (List Nat)
  | 0 => some []
  | n + 1 =>
    match readU8 b i with
    | none => none
    | some x =>
      match readBytesList b (i + 1) n with
      | none => none
      | some rest => some (x :: rest)

/-- Read `n` consecutive 16-bit units starting at `i` (payload of a UTF-16 entry). -/
def readUnits (b : List Nat) (i : Nat) : Nat → Option (List Nat)
  | 0 => some []
  | n + 1 =>
    match readU16 b i with
    | none => none
    | some x =>
      match readUnits b (i + 2) n with
      | none => none
      | some rest => some (x :: rest)

/-- A raw byte run as the `std::string(ptr, len)` constructor views it. -/
def bytesToString (l : List Nat) : String := String.mk (l.map Char.ofNat)

/-- Decode one length-prefixed string-pool entry exactly as
`BinaryXml::readStrings` does.  UTF-8 branch: the source reads ONE byte at
`start + off` (the UTF-16 character count, the first of the two length bytes)
and builds the string from that many bytes starting at `start + off + 2`; the
second length byte (the byte count) is skipped, not read.  UTF-16 branch: a
16-bit unit count, then that many 16-bit units starting at `start + off + 2`
(the codecvt UTF-16-to-UTF-8 transcoding of the units is abstracted to a
per-unit character here; it plays no role in any claim). -/
def decodeStringEntry (b : List Nat) (start : Nat) (utf8 : Bool) (off : Nat) : Option String :=
  if utf8 then
    match readU8 b (start + off) with
    | none => none
    | some len =>
      match readBytesList b (start + off + 2) len with
      | none => none
      | some bs => some (bytesToString bs)
  else
    match readU16 b (start + off) with
    | none => none
    | some len =>
      match readUnits b (start + off + 2) len with
      | none => none
      | some us => some (String.mk (us.map Char.ofNat))

/-- The offset-table loop of `readStrings`: `numStrings` 32-bit offsets read
starting at `sizeof(BinaryXmlHeader)` = 36. -/
def readOffsets (b : List Nat) : Nat → Nat → Option (List Nat)
  | _, 0 => some []
  | i, n + 1 =>
    match readU32 b i with
    | none => none
    | some off =>
      match readOffsets b (i + 4) n with
      | none => none
      | some rest => some (off :: rest)

/-- The decode loop of `readStrings`, one entry per stored offset. -/
def decodeAll (b : List Nat) (start : Nat) (utf8 : Bool) : List Nat → Option (List String)
  | [] => some []
  | off :: rest =>
    match decodeStringEntry b start utf8 off with
    | none => none
    | some s =>
      match decodeAll b start utf8 rest with
      | none => none
      | some l => some (s :: l)

/-- `BinaryXml::readStrings`.  Checks the XML magic and the string-table
identifier (returning an empty vector on mismatch, as the source does), reads
`numStrings` offsets starting at `sizeof(BinaryXmlHeader)` = 36, then decodes
each entry relative to `36 + 4 * numStrings` (the source's computed
`startStringsOffset`, deliberately not `header.stringsOffset`). -/
def readStrings (b : List Nat) : Option (List String) :=
  match readU32 b 0 with
  | none => none
  | some magic =>
    if magic ≠ XML_IDENTIFIER then some []
    else
      match readU16 b 8 with
      | none => none
      | some tid =>
        if tid ≠ XML_STRING_TABLE then some []
        else
          match readU32 b 16, readU32 b 24 with
          | some n, some flags =>
            (match readOffsets b 36 n with
             | none => none
             | some offs => decodeAll b (36 + 4 * n) (utf8Of flags) offs)
          | _, _ => none

/-- `BinaryXml::getXmlChunkOffset`.  Returns 0 when the magic is wrong, when
the string-table identifier is wrong, or when `content_.size() <=
header.chunkSize`; otherwise returns
`content_.size() - (content_.size() - header.chunkSize)`, written exactly as
the source writes it. -/
def getXmlChunkOffset (b : List Nat) : Option Nat :=
  match readU32 b 0 with
  | none => none
  | some magic =>
    if magic ≠ XML_IDENTIFIER then some 0
    else
      match readU16 b 8 with
      | none => none
      | some tid =>
        if tid ≠ XML_STRING_TABLE then some 0
        else
          match readU32 b 12 with
          | none => none
          | some csize =>
            if b.length ≤ csize then some 0
            else some (b.length - (b.length - csize))

/-- Strict lexicographic order on character lists, the order of
`std::string::operator<`. -/
def charListLt : List Char → List Char → Bool
  | [], [] => false
  | [], _ :: _ => true
  | _ :: _, [] => false
  | c :: cs, d :: ds =>
    if c.toNat < d.toNat then true
    else if d.toNat < c.toNat then false
    else charListLt cs ds

/-- Strict lexicographic order on strings (`std::string::operator<`). -/
def strLt (a b : String) : Bool := charListLt a.toList b.toList

/-- The sorted map the source uses for attributes (`std::map<std::string,
std::string>`, lexicographic keys): insertion keeps the list sorted and a
repeated key overwrites the stored value, as `attributes[name] = value` does. -/
def mapInsert (m : List (String × String)) (k v : String) : List (String × String) :=
  match m with
  | [] => [(k, v)]
  | (k1, v1) :: rest =>
    if strLt k k1 then (k, v) :: (k1, v1) :: rest
    else if k = k1 then (k, v) :: rest
    else (k1, v1) :: mapInsert rest k v

/-- Lookup in the attribute map. -/
def mapLookup (m : List (String × String)) (k : String) : Option String :=
  match m with
  | [] => none
  | (k1, v1) :: rest => if k = k1 then some v1 else mapLookup rest k

/-- One record of the attribute block, as `handleAttributes` reads it:
namespace index, name index, raw-value index, 16-bit size, (8-bit zero
padding, skipped), 8-bit type tag, 32-bit typed value. -/
structure AttributeRecord where
  namespaceIndex : Nat
  nameIndex : Nat
  valueIndex : Nat
  recSize : Nat
  valueType : Nat
  resourceId : Nat
deriving DecidableEq

/-- Fixed-width uppercase hex, the `%08X` of `formatString`. -/
def hexDigit (n : Nat) : Char :=
  if n < 10 then Char.ofNat (48 + n) else Char.ofNat (55 + n)

/-- Eight-nibble uppercase rendering of a 32-bit value (`%08X`). -/
def hex8 (n : Nat) : String :=
  String.mk ((List.range 8).map (fun i => hexDigit (n / 16 ^ (7 - i) % 16)))

/-- The value-rendering switch of `handleAttributes`, one case per type tag.
`TYPE_STRING` is the source's unchecked `strings[attributeValueIndex]`
(`none` = out-of-bounds access, undefined behavior there); `TYPE_INT_DEC` is
`formatString("%d", raw)`, which prints the 32 raw bits reinterpreted as a
signed int. -/
def decodeAttrValue (pool : List String) (t raw idx : Nat) : Option String :=
  if t = TYPE_NULL then some (if raw = 0 then "<undefined>" else "<empty>")
  else if t = TYPE_REFERENCE then some ("@res/0x" ++ hex8 raw)
  else if t = TYPE_ATTRIBUTE then some ("@attr/0x" ++ hex8 raw)
  else if t = TYPE_STRING then pool[idx]?
  else if t = TYPE_FLOAT then some ""
  else if t = TYPE_DIMENSION then some ""
  else if t = TYPE_FRACTION then some ""
  else if t = TYPE_DYNAMIC_REFERENCE then some ("@dyn/0x" ++ hex8 raw)
  else if t = TYPE_INT_DEC then some (toString (asI32 raw))
  else if t = TYPE_INT_HEX then some ("0x" ++ hex8 raw)
  else if t = TYPE_INT_BOOLEAN then
    some (if raw = RES_VALUE_TRUE then "true"
          else if raw = RES_VALUE_FALSE then "false" else "unknown")
  else some "unknown"

/-- One 20-byte attribute record read, advancing the cursor as the source does. -/
def readAttrRecord (b : List Nat) (off : Nat) : Option (AttributeRecord × Nat) :=
  match readU32 b off, readU32 b (off + 4), readU32 b (off + 8), readU16 b (off + 12),
        readU8 b (off + 14), readU8 b (off + 15), readU32 b (off + 16) with
  | some ns, some nameIdx, some valIdx, some sz, some _pad, some ty, some resId =>
      some (⟨ns, nameIdx, valIdx, sz, ty, resId⟩, off + 20)
  | _, _, _, _, _, _, _ => none

/-- The record loop of `handleAttributes`: `count` records in order. -/
def readAttrRecords (b : List Nat) (off : Nat) : Nat → Option (List AttributeRecord × Nat)
  | 0 => some ([], off)
  | n + 1 =>
    match readAttrRecord b off with
    | none => none
    | some (r, off2) =>
      match readAttrRecords b off2 n with
      | none => none
      | some (rs, off3) => some (r :: rs, off3)

/-- The attribute-block frame of `handleAttributes`: the marker word (on
mismatch the source logs and returns the empty map with the cursor just past
the marker), the count, one skipped word, then the records. -/
def parseAttributes (b : List Nat) (off : Nat) : Option (List AttributeRecord × Nat) :=
  match readU32 b off with
  | none => none
  | some marker =>
    if marker ≠ XML_ATTRS_MARKER then some ([], off + 4)
    else
      match readU32 b (off + 4), readU32 b (off + 8) with
      | some count, some _ => readAttrRecords b (off + 12) count
      | _, _ => none

/-- Per-record body of the `handleAttributes` loop: the unchecked name lookup
`strings[attributeNameIndex]` (outer `none` = out-of-bounds, undefined
behavior), the skip of empty names (`continue`, inner `none`), then the value
switch. -/
def decodeAttrRecord (pool : List String) (r : AttributeRecord) :
    Option (Option (String × String)) :=
  match pool[r.nameIndex]? with
  | none => none
  | some name =>
    if name = "" then some none
    else
      match decodeAttrValue pool r.valueType r.resourceId r.valueIndex with
      | none => none
      | some v => some (some (name, v))

/-- Decode every record of the block in order. -/
def decodeAttrRecordsList (pool : List String) :
    List AttributeRecord → Option (List (Option (String × String)))
  | [] => some []
  | r :: rs =>
    match decodeAttrRecord pool r with
    | none => none
    | some p =>
      match decodeAttrRecordsList pool rs with
      | none => none
      | some ps => some (p :: ps)

/-- The map-building fold of the `handleAttributes` loop: records are taken in
order; an empty name is skipped; `attributes[name] = value` inserts into the
sorted map, overwriting any earlier record with the same name. -/
def attrAccum (m : List (String × String)) (l : List (String × String)) :
    List (String × String) :=
  l.foldl (fun acc p => if p.1 = "" then acc else mapInsert acc p.1 p.2) m

/-- The attribute map built by `handleAttributes` from a record list. -/
def attrMapOfRecords (pool : List String) (recs : List AttributeRecord) :
    Option (List (String × String)) :=
  match decodeAttrRecordsList pool recs with
  | none => none
  | some ps => some (attrAccum [] (ps.filterMap id))

/-- Namespace/name resolution of `handleStartElementTag` /
`handleEndElementTag`: `idx >= 0 ? strings[uint32(idx)] : ""`, with the
nonnegative branch an unchecked pool access (`none` = out of bounds,
undefined behavior in the source). -/
def resolveStringIndex (pool : List String) (idx : Nat) : Option String :=
  if 0 ≤ asI32 idx then pool[idx]? else some ""

/-- Structured XML events, the `BinaryXmlVisitor` capability set. -/
inductive XmlEvent where
  | start (name : String) (attributes : List (String × String))
  | endTag (name : String)
  | cdata (text : String)
  | invalid (reason : String)
deriving DecidableEq

/-- The shared head of start-element and end-element bodies: two skipped words
(line and comment), namespace index, name index; both indices resolved against
the pool.  Consumes exactly 16 bytes. -/
def parseElementHead (b : List Nat) (pool : List String) (off : Nat) : Option (String × Nat) :=
  match readU32 b off, readU32 b (off + 4), readU32 b (off + 8), readU32 b (off + 12) with
  | some _, some _, some nsIdx, some nameIdx =>
    (match resolveStringIndex pool nsIdx with
     | none => none
     | some _ =>
       match resolveStringIndex pool nameIdx with
       | none => none
       | some name => some (name, off + 16))
  | _, _, _, _ => none

/-- `handleStartElementTag`: element head, then the attribute block, then the
`StartXmlTagElement` event handed to the visitor. -/
def handleStartElementTag (b : List Nat) (pool : List String) (off : Nat) :
    Option (XmlEvent × Nat) :=
  match parseElementHead b pool off with
  | none => none
  | some (name, off2) =>
    match parseAttributes b off2 with
    | none => none
    | some (recs, off3) =>
      match attrMapOfRecords pool recs with
      | none => none
      | some m => some (XmlEvent.start name m, off3)

/-- `handleEndElementTag`: element head, then the `EndXmlTagElement` event. -/
def handleEndElementTag (b : List Nat) (pool : List String) (off : Nat) :
    Option (XmlEvent × Nat) :=
  match parseElementHead b pool off with
  | none => none
  | some (name, off2) => some (XmlEvent.endTag name, off2)

/-- `handleCDataTag`: two skipped words, the string index (looked up in the
pool unchecked), two more skipped words.  The source only logs the string; it
constructs no event and dispatches nothing to the visitor. -/
def handleCDataTag (b : List Nat) (pool : List String) (off : Nat) : Option Nat :=
  match readU32 b off, readU32 b (off + 4), readU32 b (off + 8) with
  | some _, some _, some idx =>
    (match pool[idx]? with
     | none => none
     | some _ =>
       match readU32 b (off + 12), readU32 b (off + 16) with
       | some _, some _ => some (off + 20)
       | _, _ => none)
  | _, _, _ => none

/-- The `chunkSize - 8` skip of the traversal loop, in `uint32_t` arithmetic. -/
def wrap32sub8 (c : Nat) : Nat := (c + 4294967288) % 4294967296

/-- The switch of `BinaryXml::traverseXml` on one chunk tag, given the cursor
just past the 8-byte preamble.  Returns the events dispatched for this chunk
(cdata dispatches none) and the new cursor; the default branch only logs and
advances nothing further. -/
def chunkProcess (b : List Nat) (pool : List String) (off tag csize : Nat) :
    Option (List XmlEvent × Nat) :=
  if tag = RES_XML_START_NAMESPACE_TYPE then some ([], off + wrap32sub8 csize)
  else if tag = RES_XML_RESOURCE_MAP_TYPE then some ([], off + wrap32sub8 csize)
  else if tag = RES_XML_START_ELEMENT_TYPE then
    match handleStartElementTag b pool off with
    | none => none
    | some (ev, off2) => some ([ev], off2)
  else if tag = RES_XML_END_ELEMENT_TYPE then
    match handleEndElementTag b pool off with
    | none => none
    | some (ev, off2) => some ([ev], off2)
  else if tag = RES_XML_CDATA_TYPE then
    match handleCDataTag b pool off with
    | none => none
    | some off2 => some ([], off2)
  else some ([], off)

/-- Outcome of one pass of the do-while body of `traverseXml`: the loop exits
when the tag read at the end of the body is end-namespace. -/
inductive StepOutcome where
  | finish (evs : List XmlEvent)
  | next (evs : List XmlEvent) (off2 tag2 : Nat)
  | stepOob

/-- One pass of the do-while body of `traverseXml`, entered with the cursor
just past the current tag: read the 16-bit header size and 32-bit chunk size,
re-read the string pool (the source calls `readStrings()` every iteration),
handle the chunk, then read the next tag and test it against end-namespace. -/
def loopStep (b : List Nat) (off tag : Nat) : StepOutcome :=
  match readU16 b off, readU32 b (off + 2), readStrings b with
  | some _hs, some csize, some pool =>
    (match chunkProcess b pool (off + 6) tag csize with
     | none => StepOutcome.stepOob
     | some (evs, off2) =>
       match readU16 b off2 with
       | none => StepOutcome.stepOob
       | some tag2 =>
         if tag2 = RES_XML_END_NAMESPACE_TYPE then StepOutcome.finish evs
         else StepOutcome.next evs (off2 + 2) tag2)
  | _, _, _ => StepOutcome.stepOob

/-- Result of a traversal.  `ok` carries the event trace delivered to the
visitor; `oob` marks a read or pool access that is out of bounds in the source
(undefined behavior there); `fuelOut` is the bookkeeping outcome of the
fuelled loop and, as proved below, never occurs when the loop is run with fuel
`b.length` as `traverseXml` runs it. -/
inductive TravResult where
  | ok (events : List XmlEvent)
  | oob
  | fuelOut
deriving DecidableEq

/-- Prepend the events of the current pass to the events of the rest of the
loop; failures pass through. -/
def travCombine (evs : List XmlEvent) : TravResult → TravResult
  | TravResult.ok evs2 => TravResult.ok (evs ++ evs2)
  | r => r

/-- The do-while loop of `traverseXml`, fuelled: each pass consumes one unit. -/
def traverseLoop (b : List Nat) (fuel off tag : Nat) : TravResult :=
  match loopStep b off tag with
  | StepOutcome.stepOob => TravResult.oob
  | StepOutcome.finish evs => TravResult.ok evs
  | StepOutcome.next evs off2 tag2 =>
    match fuel with
    | 0 => TravResult.fuelOut
    | fuel2 + 1 => travCombine evs (traverseLoop b fuel2 off2 tag2)

/-- `BinaryXml::traverseXml`: if the XML chunk offset is zero, dispatch a
single `Invalid{"chunk offset is zero"}` and return; otherwise read the first
tag there and run the chunk loop (with fuel `b.length`, which the termination
theorem shows is never exhausted). -/
def traverseXml (b : List Nat) : TravResult :=
  match getXmlChunkOffset b with
  | none => TravResult.oob
  | some off =>
    if off = 0 then TravResult.ok [XmlEvent.invalid "chunk offset is zero"]
    else
      match readU16 b off with
      | none => TravResult.oob
      | some tag => traverseLoop b b.length (off + 2) tag

/-- Bool view of the fuel-exhaustion outcome. -/
def isFuelOut : TravResult → Bool
  | TravResult.fuelOut => true
  | _ => false

/-- Modelled from the spec: the encoder of `set_element_attribute`'s
replacement value.  The implementation of the mutator
(`AttributesSetterVisitor` and `BinaryXml::setElementAttribute`) is not among
the sources (only the visitor's declaration is); the spec says the replacement
is encoded in the pool's declared encoding, UTF-8 bytes or UTF-16LE code
units. -/
def utf8EncodeChar (c : Nat) : List Nat :=
  if c < 128 then [c]
  else if c < 2048 then [192 + c / 64, 128 + c % 64]
  else if c < 65536 then [224 + c / 4096, 128 + c / 64 % 64, 128 + c % 64]
  else [240 + c / 262144, 128 + c / 4096 % 64, 128 + c / 64 % 64, 128 + c % 64]

/-- Modelled from the spec: `encode(new_value, encoding)` of the mutator. -/
def encodeValue (utf8 : Bool) (s : String) : List Nat :=
  if utf8 then ((s.toList.map Char.toNat).map utf8EncodeChar).flatten
  else ((s.toList.map Char.toNat).map (fun c => [c % 256, c / 256 % 256])).flatten

/-- The UTF-8 flag of the header, as the mutator needs it. -/
def isUtf8Flag (b : List Nat) : Option Bool :=
  match readU32 b 24 with
  | none => none
  | some flags => some (utf8Of flags)

/-- Modelled from the spec: `raw_slot(i)` of the string pool — the physical
extent (absolute byte offset and byte length) of the i-th string's payload,
excluding the length prefix and the terminator.  UTF-8 entries carry two
length bytes, the second being the byte count `b`; UTF-16 entries carry a
16-bit unit count `c` with a `2 * c`-byte payload. -/
def rawSlot (b : List Nat) (i : Nat) : Option (Nat × Nat) :=
  match readU32 b 16, readU32 b 24 with
  | some n, some flags =>
    (match readU32 b (36 + 4 * i) with
     | none => none
     | some off =>
       if utf8Of flags then
         match readU8 b (36 + 4 * n + off + 1) with
         | none => none
         | some blen => some (36 + 4 * n + off + 2, blen)
       else
         match readU16 b (36 + 4 * n + off) with
         | none => none
         | some c => some (36 + 4 * n + off + 2, 2 * c))
  | _, _ => none

/-- Modelled from the spec: the attribute-setter visitor's search for the
target attribute inside one element's record block — the record whose name
resolves to the target name supplies the raw-value-string index to rewrite. -/
def elementAttrLookup (pool : List String) (name : String) :
    List AttributeRecord → Option (Option Nat)
  | [] => some none
  | r :: rs =>
    match pool[r.nameIndex]? with
    | none => none
    | some n => if n = name then some (some r.valueIndex) else elementAttrLookup pool name rs

/-- Outcome of one chunk pass of the locating traversal. -/
inductive LocOutcome where
  | locFound (idx : Nat)
  | locFinish
  | locNext (off2 tag2 : Nat) (stack2 : List String)
  | locOob

/-- Modelled from the spec: one chunk pass of the attribute-setter traversal.
It walks the same chunk stream as `traverseXml`, maintaining the stack of
currently open element names: push on start-element, pop on end-element; when
the stack equals the target path and the element carries the target attribute,
the attribute's raw-value-string index is the result. -/
def locateStep (b : List Nat) (path : List String) (name : String)
    (off tag : Nat) (stack : List String) : LocOutcome :=
  match readU16 b off, readU32 b (off + 2), readStrings b with
  | some _hs, some csize, some pool =>
    (match
      (if tag = RES_XML_START_NAMESPACE_TYPE then some (none, off + 6 + wrap32sub8 csize, stack)
       else if tag = RES_XML_RESOURCE_MAP_TYPE then some (none, off + 6 + wrap32sub8 csize, stack)
       else if tag = RES_XML_START_ELEMENT_TYPE then
         match parseElementHead b pool (off + 6) with
         | none => none
         | some (ename, o1) =>
           match parseAttributes b o1 with
           | none => none
           | some (recs, o2) =>
             if stack ++ [ename] = path then
               match elementAttrLookup pool name recs with
               | none => none
               | some (some idx) => some (some idx, o2, stack ++ [ename])
               | some none => some (none, o2, stack ++ [ename])
             else some (none, o2, stack ++ [ename])
       else if tag = RES_XML_END_ELEMENT_TYPE then
         match handleEndElementTag b pool (off + 6) with
         | none => none
         | some (_, o2) => some (none, o2, stack.dropLast)
       else if tag = RES_XML_CDATA_TYPE then
         match handleCDataTag b pool (off + 6) with
         | none => none
         | some o2 => some (none, o2, stack)
       else some (none, off + 6, stack)) with
     | none => LocOutcome.locOob
     | some (some idx, _, _) => LocOutcome.locFound idx
     | some (none, off2, stack2) =>
       match readU16 b off2 with
       | none => LocOutcome.locOob
       | some tag2 =>
         if tag2 = RES_XML_END_NAMESPACE_TYPE then LocOutcome.locFinish
         else LocOutcome.locNext (off2 + 2) tag2 stack2)
  | _, _, _ => LocOutcome.locOob

/-- Modelled from the spec: the fuelled chunk loop of the locating traversal. -/
def locateLoop (b : List Nat) (path : List String) (name : String)
    (fuel off tag : Nat) (stack : List String) : Option (Option Nat) :=
  match locateStep b path name off tag stack with
  | LocOutcome.locOob => none
  | LocOutcome.locFound idx => some (some idx)
  | LocOutcome.locFinish => some none
  | LocOutcome.locNext off2 tag2 stack2 =>
    match fuel with
    | 0 => none
    | fuel2 + 1 => locateLoop b path name fuel2 off2 tag2 stack2

/-- Modelled from the spec: locate the raw-value-string index of the first
attribute matching `(path, name)`, by the same chunk walk as `traverseXml`. -/
def locateAttribute (b : List Nat) (path : List String) (name : String) :
    Option (Option Nat) :=
  match getXmlChunkOffset b with
  | none => none
  | some off =>
    if off = 0 then some none
    else
      match readU16 b off with
      | none => none
      | some tag => locateLoop b path name b.length (off + 2) tag []

/-- Result of `set_element_attribute`. -/
inductive MutationResult where
  | mutSuccess
  | mutUnsupported
  | mutMissing
deriving DecidableEq

/-- Overwrite consecutive bytes of the buffer starting at `off`. -/
def writeBytes (b : List Nat) (off : Nat) : List Nat → List Nat
  | [] => b
  | v :: vs => writeBytes (b.set off v) (off + 1) vs

/-- Modelled from the spec: `set_element_attribute(path, name, new_value)`.
Locate the attribute, obtain its raw slot; if the encoded replacement's byte
length equals the slot's byte length, overwrite the slot bytes (leaving length
prefix and terminator untouched); otherwise fail with `UnsupportedMutation`,
leaving the buffer unchanged. -/
def setElementAttribute (b : List Nat) (path : List String) (name value : String) :
    Option (MutationResult × List Nat) :=
  match isUtf8Flag b, locateAttribute b path name with
  | some utf8, some (some idx) =>
    (match rawSlot b idx with
     | none => none
     | some (slotOff, slotLen) =>
       if (encodeValue utf8 value).length = slotLen then
         some (MutationResult.mutSuccess, writeBytes b slotOff (encodeValue utf8 value))
       else some (MutationResult.mutUnsupported, b))
  | some _, some none => some (MutationResult.mutMissing, b)
  | _, _ => none

/-- Follows the spec's words for the UTF-8 string-pool entry rule (its length
sentence, used to compare against the source's decoder): read an 8-bit UTF-16
count (ignored for decoding), then an 8-bit byte count `b`; the decoded string
consists of exactly the `b` payload bytes that follow. -/
def specUtf8Entry (b : List Nat) (start off : Nat) : Option String :=
  match readU8 b (start + off) with
  | none => none
  | some _utf16Count =>
    match readU8 b (start + off + 1) with
    | none => none
    | some blen =>
      match readBytesList b (start + off + 2) blen with
      | none => none
      | some bs => some (bytesToString bs)

/-- Little-endian bytes of a 16-bit value, for building concrete buffers. -/
def u16bytes (n : Nat) : List Nat := [n % 256, n / 256 % 256]

/-- Little-endian bytes of a 32-bit value, for building concrete buffers. -/
def u32bytes (n : Nat) : List Nat :=
  [n % 256, n / 256 % 256, n / 65536 % 256, n / 16777216 % 256]

/-- A 36-byte header with valid magic and string-table identifier, the given
chunk size, string count and flags, and zeroed remaining fields. -/
def headerBytes (csize nstr flags : Nat) : List Nat :=
  u32bytes XML_IDENTIFIER ++ u32bytes 0 ++ u16bytes XML_STRING_TABLE ++ u16bytes 0 ++
  u32bytes csize ++ u32bytes nstr ++ u32bytes 0 ++ u32bytes flags ++ u32bytes 0 ++ u32bytes 0

/-- A well-formed UTF-8 buffer with pool `["e", "n", "abc"]` and the chunk
stream `<e n="abc"/>` (start-element with one TYPE_STRING attribute,
end-element, end-namespace). -/
def bufC1 : List Nat :=
  headerBytes 62 3 256 ++
  u32bytes 0 ++ u32bytes 4 ++ u32bytes 8 ++
  [1, 1, 101, 0] ++ [1, 1, 110, 0] ++ [3, 3, 97, 98, 99, 0] ++
  u16bytes RES_XML_START_ELEMENT_TYPE ++ u16bytes 16 ++ u32bytes 56 ++
  u32bytes 0 ++ u32bytes 0 ++ u32bytes 4294967295 ++ u32bytes 0 ++
  u32bytes XML_ATTRS_MARKER ++ u32bytes 1 ++ u32bytes 0 ++
  u32bytes 4294967295 ++ u32bytes 1 ++ u32bytes 2 ++
  u16bytes 20 ++ [0] ++ [TYPE_STRING] ++ u32bytes 2 ++
  u16bytes RES_XML_END_ELEMENT_TYPE ++ u16bytes 16 ++ u32bytes 24 ++
  u32bytes 0 ++ u32bytes 0 ++ u32bytes 4294967295 ++ u32bytes 0 ++
  u16bytes RES_XML_END_NAMESPACE_TYPE

/-- Like `bufC1` but with TWO attribute records, both named `"n"`: a
TYPE_STRING record valued `"abc"` followed by a TYPE_INT_HEX record with raw
value 0. -/
def bufC10 : List Nat :=
  headerBytes 62 3 256 ++
  u32bytes 0 ++ u32bytes 4 ++ u32bytes 8 ++
  [1, 1, 101, 0] ++ [1, 1, 110, 0] ++ [3, 3, 97, 98, 99, 0] ++
  u16bytes RES_XML_START_ELEMENT_TYPE ++ u16bytes 16 ++ u32bytes 76 ++
  u32bytes 0 ++ u32bytes 0 ++ u32bytes 4294967295 ++ u32bytes 0 ++
  u32bytes XML_ATTRS_MARKER ++ u32bytes 2 ++ u32bytes 0 ++
  u32bytes 4294967295 ++ u32bytes 1 ++ u32bytes 2 ++
  u16bytes 20 ++ [0] ++ [TYPE_STRING] ++ u32bytes 2 ++
  u32bytes 4294967295 ++ u32bytes 1 ++ u32bytes 0 ++
  u16bytes 20 ++ [0] ++ [TYPE_INT_HEX] ++ u32bytes 0 ++
  u16bytes RES_XML_END_ELEMENT_TYPE ++ u16bytes 16 ++ u32bytes 24 ++
  u32bytes 0 ++ u32bytes 0 ++ u32bytes 4294967295 ++ u32bytes 0 ++
  u16bytes RES_XML_END_NAMESPACE_TYPE

/-- A well-formed UTF-8 buffer (pool `["a"]`) whose only chunk before the
end-namespace tag is a cdata chunk referring to pool string 0. -/
def bufCData : List Nat :=
  headerBytes 44 1 256 ++
  u32bytes 0 ++ [1, 1, 97, 0] ++
  u16bytes RES_XML_CDATA_TYPE ++ u16bytes 16 ++ u32bytes 28 ++
  u32bytes 0 ++ u32bytes 0 ++ u32bytes 0 ++ u32bytes 0 ++ u32bytes 0 ++
  u16bytes RES_XML_END_NAMESPACE_TYPE

/-- A UTF-8 buffer whose single pool entry has first length byte 1 (UTF-16
character count) and second length byte 2 (byte count), with payload bytes
`"ab"`. -/
def bufC3 : List Nat :=
  headerBytes 0 1 256 ++ u32bytes 0 ++ [1, 2, 97, 98, 0]

/-- A well-formed UTF-8 buffer (pool `["a"]`) whose start-element carries the
out-of-range name-string index 5. -/
def bufC4 : List Nat :=
  headerBytes 44 1 256 ++
  u32bytes 0 ++ [1, 1, 97, 0] ++
  u16bytes RES_XML_START_ELEMENT_TYPE ++ u16bytes 16 ++ u32bytes 36 ++
  u32bytes 0 ++ u32bytes 0 ++ u32bytes 4294967295 ++ u32bytes 5

/-- A 36-byte buffer with valid magics whose declared chunk size equals the
buffer length exactly. -/
def bufC6 : List Nat := headerBytes 36 0 0

/-- A 36-byte buffer with valid magics whose declared chunk size is zero. -/
def bufC6zero : List Nat := headerBytes 0 0 0

/-- A buffer with valid magics declaring one pool string but truncated before
the offset table. -/
def bufC9bad : List Nat := headerBytes 0 1 0

/-- A 36-byte all-zero buffer: the magic test fails, so the chunk offset is 0. -/
def bufZeros : List Nat := List.replicate 36 0

theorem readU8_lt_length (b : List Nat) (i v : Nat) (h : readU8 b i = some v) :
    i < b.length := by
  unfold readU8 at h
  cases hg : b[i]? with
  | none => rw [hg] at h; exact Option.noConfusion h
  | some x =>
    by_contra hc
    rw [List.getElem?_eq_none (by omega)] at hg
    exact Option.noConfusion hg

theorem readU16_bound (b : List Nat) (i v : Nat) (h : readU16 b i = some v) :
    i + 2 ≤ b.length := by
  unfold readU16 at h
  cases h0 : readU8 b i with
  | none => rw [h0] at h; exact Option.noConfusion h
  | some lo =>
    cases h1 : readU8 b (i + 1) with
    | none => rw [h0, h1] at h; exact Option.noConfusion h
    | some hi => have := readU8_lt_length b (i + 1) hi h1; omega

theorem mapLookup_mapInsert_self (m : List (String × String)) (k v : String) :
    mapLookup (mapInsert m k v) k = some v := by
  induction m with
  | nil => simp [mapInsert, mapLookup]
  | cons p rest ih =>
    obtain ⟨k1, v1⟩ := p
    unfold mapInsert
    by_cases h1 : strLt k k1 = true
    · simp [h1, mapLookup]
    · by_cases h2 : k = k1
      · subst h2; simp [h1, mapLookup]
      · simp [h1, h2, mapLookup, ih]

theorem mapLookup_mapInsert_ne (m : List (String × String)) (k v k2 : String)
    (h : k2 ≠ k) : mapLookup (mapInsert m k v) k2 = mapLookup m k2 := by
  induction m with
  | nil => simp [mapInsert, mapLookup, h]
  | cons p rest ih =>
    obtain ⟨k1, v1⟩ := p
    unfold mapInsert
    by_cases h1 : strLt k k1 = true
    · simp [h1, mapLookup, h]
    · by_cases h2 : k = k1
      · subst h2; simp [h1, mapLookup, h]
      · by_cases h3 : k2 = k1
        · simp [h1, h2, h3, mapLookup]
        · simp [h1, h2, h3, mapLookup, ih]

theorem attrAccum_cons (m : List (String × String)) (p : String × String)
    (l : List (String × String)) :
    attrAccum m (p :: l) = attrAccum (if p.1 = "" then m else mapInsert m p.1 p.2) l := rfl

theorem attrAccum_append (m : List (String × String)) (l1 l2 : List (String × String)) :
    attrAccum m (l1 ++ l2) = attrAccum (attrAccum m l1) l2 := by
  unfold attrAccum
  exact List.foldl_append _ m l1 l2

theorem mapLookup_attrAccum_ne (m : List (String × String)) (l : List (String × String))
    (k : String) (h : ∀ p ∈ l, p.1 ≠ k) :
    mapLookup (attrAccum m l) k = mapLookup m k := by
  induction l generalizing m with
  | nil => rfl
  | cons p rest ih =>
    rw [attrAccum_cons]
    rw [ih _ (fun q hq => h q (List.mem_cons_of_mem p hq))]
    by_cases hp : p.1 = ""
    · simp [hp]
    · rw [if_neg hp]
      exact mapLookup_mapInsert_ne m p.1 p.2 k (Ne.symm (h p (List.mem_cons_self p rest)))
theorem readAttrRecord_off (b : List Nat) (off : Nat) (r : AttributeRecord) (off2 : Nat)
    (h : readAttrRecord b off = some (r, off2)) : off2 = off + 20 := by
  unfold readAttrRecord at h
  split at h
  · simp at h; omega
  · exact Option.noConfusion h

theorem readAttrRecords_mono (b : List Nat) :
    ∀ n off rs off2, readAttrRecords b off n = some (rs, off2) → off ≤ off2 := by
  intro n
  induction n with
  | zero => intro off rs off2 h; unfold readAttrRecords at h; simp_all
  | succ n ih =>
    intro off rs off2 h
    unfold readAttrRecords at h
    split at h
    · exact Option.noConfusion h
    · next r offm heq =>
      split at h
      · exact Option.noConfusion h
      · next rs2 off3 heq2 =>
        simp at h
        have e1 := readAttrRecord_off b off r offm heq
        have e2 := ih offm rs2 off3 heq2
        omega

theorem parseAttributes_mono (b : List Nat) (off : Nat) (recs : List AttributeRecord)
    (off2 : Nat) (h : parseAttributes b off = some (recs, off2)) : off ≤ off2 := by
  unfold parseAttributes at h
  split at h
  · exact Option.noConfusion h
  · next marker heq =>
    split at h
    · simp at h; omega
    · split at h
      · next count skip hc hs =>
        have := readAttrRecords_mono b count (off + 12) recs off2 h
        omega
      · exact Option.noConfusion h

theorem parseElementHead_off (b : List Nat) (pool : List String) (off : Nat)
    (name : String) (off2 : Nat) (h : parseElementHead b pool off = some (name, off2)) :
    off2 = off + 16 := by
  unfold parseElementHead at h
  split at h
  · split at h
    · exact Option.noConfusion h
    · split at h
      · exact Option.noConfusion h
      · simp at h; omega
  · exact Option.noConfusion h

theorem handleStartElementTag_mono (b : List Nat) (pool : List String) (off : Nat)
    (ev : XmlEvent) (off2 : Nat) (h : handleStartElementTag b pool off = some (ev, off2)) :
    off ≤ off2 := by
  unfold handleStartElementTag at h
  split at h
  · exact Option.noConfusion h
  · next name offm heq =>
    split at h
    · exact Option.noConfusion h
    · next recs off3 heq2 =>
      split at h
      · exact Option.noConfusion h
      · next m heq3 =>
        simp at h
        have e0 := parseElementHead_off b pool off name offm heq
        have e1 := parseAttributes_mono b offm recs off3 heq2
        omega

theorem handleEndElementTag_mono (b : List Nat) (pool : List String) (off : Nat)
    (ev : XmlEvent) (off2 : Nat) (h : handleEndElementTag b pool off = some (ev, off2)) :
    off ≤ off2 := by
  unfold handleEndElementTag at h
  split at h
  · exact Option.noConfusion h
  · next name offm heq =>
    simp at h
    have := parseElementHead_off b pool off name offm heq
    omega

theorem handleCDataTag_off (b : List Nat) (pool : List String) (off off2 : Nat)
    (h : handleCDataTag b pool off = some off2) : off2 = off + 20 := by
  unfold handleCDataTag at h
  split at h
  · split at h
    · exact Option.noConfusion h
    · split at h
      · simp at h; omega
      · exact Option.noConfusion h
  · exact Option.noConfusion h

theorem chunkProcess_mono (b : List Nat) (pool : List String) (off tag csize : Nat)
    (evs : List XmlEvent) (off2 : Nat)
    (h : chunkProcess b pool off tag csize = some (evs, off2)) : off ≤ off2 := by
  unfold chunkProcess at h
  split at h
  · simp at h; omega
  · split at h
    · simp at h; omega
    · split at h
      · split at h
        · exact Option.noConfusion h
        · next ev o heq =>
          simp at h
          have := handleStartElementTag_mono b pool off ev o heq
          omega
      · split at h
        · split at h
          · exact Option.noConfusion h
          · next ev o heq =>
            simp at h
            have := handleEndElementTag_mono b pool off ev o heq
            omega
        · split at h
          · split at h
            · exact Option.noConfusion h
            · next o heq =>
              simp at h
              have := handleCDataTag_off b pool off o heq
              omega
          · simp at h; omega

theorem loopStep_next_bound (b : List Nat) (off tag : Nat) (evs : List XmlEvent)
    (off3 tag2 : Nat) (h : loopStep b off tag = StepOutcome.next evs off3 tag2) :
    off + 8 ≤ off3 ∧ off3 ≤ b.length := by
  unfold loopStep at h
  split at h
  · next hs csize pool hhs hcs hpool =>
    split at h
    · exact StepOutcome.noConfusion h
    · next evs0 off2 heq =>
      split at h
      · exact StepOutcome.noConfusion h
      · next tagn heqt =>
        split at h
        · exact StepOutcome.noConfusion h
        · simp at h
          obtain ⟨_, hoff, _⟩ := h
          have hm := chunkProcess_mono b pool (off + 6) tag csize evs0 off2 heq
          have hb := readU16_bound b off2 tagn heqt
          omega
  · exact StepOutcome.noConfusion h

theorem travCombine_ne_fuelOut (evs : List XmlEvent) (x : TravResult)
    (hx : x ≠ TravResult.fuelOut) : travCombine evs x ≠ TravResult.fuelOut := by
  cases x <;> simp_all [travCombine]

theorem traverseLoop_no_fuelOut (b : List Nat) :
    ∀ fuel off tag, b.length ≤ off + 8 * fuel →
      traverseLoop b fuel off tag ≠ TravResult.fuelOut := by
  intro fuel
  induction fuel with
  | zero =>
    intro off tag hb
    unfold traverseLoop
    cases hs : loopStep b off tag with
    | stepOob => simp
    | finish evs => simp
    | next evs off2 tag2 =>
      exfalso
      have := loopStep_next_bound b off tag evs off2 tag2 hs
      omega
  | succ fuel2 ih =>
    intro off tag hb
    unfold traverseLoop
    cases hs : loopStep b off tag with
    | stepOob => simp
    | finish evs => simp
    | next evs off2 tag2 =>
      have hbd := loopStep_next_bound b off tag evs off2 tag2 hs
      have hr := ih off2 tag2 (by omega)
      exact travCombine_ne_fuelOut evs _ hr

theorem readOffsets_length (b : List Nat) :
    ∀ n i offs, readOffsets b i n = some offs → offs.length = n := by
  intro n
  induction n with
  | zero => intro i offs h; unfold readOffsets at h; simp_all
  | succ n ih =>
    intro i offs h
    unfold readOffsets at h
    split at h
    · exact Option.noConfusion h
    · next off heq =>
      split at h
      · exact Option.noConfusion h
      · next rest heq2 =>
        simp at h
        subst h
        simp [ih (i + 4) rest heq2]

theorem readOffsets_get (b : List Nat) :
    ∀ n i offs, readOffsets b i n = some offs →
      ∀ j, j < n → offs[j]? = readU32 b (i + 4 * j) := by
  intro n
  induction n with
  | zero => intro i offs h j hj; omega
  | succ n ih =>
    intro i offs h j hj
    unfold readOffsets at h
    split at h
    · exact Option.noConfusion h
    · next off heq =>
      split at h
      · exact Option.noConfusion h
      · next rest heq2 =>
        simp at h
        subst h
        cases j with
        | zero => simpa using heq.symm
        | succ j =>
          have e : i + 4 + 4 * j = i + 4 * (j + 1) := by omega
          have := ih (i + 4) rest heq2 j (by omega)
          simpa [e] using this

theorem decodeAll_length (b : List Nat) (start : Nat) (u : Bool) :
    ∀ offs l, decodeAll b start u offs = some l → l.length = offs.length := by
  intro offs
  induction offs with
  | nil => intro l h; unfold decodeAll at h; simp_all
  | cons off rest ih =>
    intro l h
    unfold decodeAll at h
    split at h
    · exact Option.noConfusion h
    · next s heq =>
      split at h
      · exact Option.noConfusion h
      · next l2 heq2 =>
        simp at h
        subst h
        simp [ih l2 heq2]

theorem decodeAll_get (b : List Nat) (start : Nat) (u : Bool) :
    ∀ offs l, decodeAll b start u offs = some l →
      ∀ j, j < offs.length →
        ∃ off, offs[j]? = some off ∧ l[j]? = decodeStringEntry b start u off := by
  intro offs
  induction offs with
  | nil => intro l h j hj; simp at hj
  | cons off rest ih =>
    intro l h j hj
    unfold decodeAll at h
    split at h
    · exact Option.noConfusion h
    · next s heq =>
      split at h
      · exact Option.noConfusion h
      · next l2 heq2 =>
        simp at h
        subst h
        cases j with
        | zero => exact ⟨off, by simp, by simp [heq]⟩
        | succ j =>
          obtain ⟨o, ho1, ho2⟩ := ih l2 heq2 j (by simpa using hj)
          exact ⟨o, by simpa using ho1, by simpa using ho2⟩

theorem isFuelOut_eq_false (x : TravResult) (h : x ≠ TravResult.fuelOut) :
    isFuelOut x = false := by
  cases x <;> simp_all [isFuelOut]

/-- Claim C1: if the replacement value's encoded byte length differs from the
byte length of the located attribute's string-pool slot, then
`set_element_attribute` returns `UnsupportedMutation` and the buffer is
returned unchanged, byte for byte (no partial write). -/
theorem claim1 (b : List Nat) (path : List String) (name value : String)
    (utf8 : Bool) (idx slotOff slotLen : Nat)
    (hu : isUtf8Flag b = some utf8)
    (hl : locateAttribute b path name = some (some idx))
    (hs : rawSlot b idx = some (slotOff, slotLen))
    (hlen : (encodeValue utf8 value).length ≠ slotLen) :
    setElementAttribute b path name value = some (MutationResult.mutUnsupported, b) := by
  unfold setElementAttribute
  rw [hu, hl]
  simp [hs, hlen]

/-- Witness for C1: on a concrete well-formed buffer whose located slot holds
the 3-byte payload `"abc"`, setting the 2-byte value `"xy"` is refused and the
buffer is returned unchanged. -/
theorem claim1_witness :
    setElementAttribute bufC1 ["e"] "n" "xy" = some (MutationResult.mutUnsupported, bufC1) :=
  claim1 bufC1 ["e"] "n" "xy" true 2 58 3 (by decide) (by decide) (by decide) (by decide)

/-- Claim C2 (evaluation at the failing input): `bufCData` is a well-formed
buffer whose only chunk before end-namespace is a recognized cdata chunk, yet
the traversal delivers the empty event trace — no `CData` event reaches the
visitor, because `handleCDataTag` only logs and never dispatches. -/
theorem claim2_theorem :
    getXmlChunkOffset bufCData = some 44 ∧
    readU16 bufCData 44 = some RES_XML_CDATA_TYPE ∧
    traverseXml bufCData = TravResult.ok [] := by
  refine ⟨by decide, by decide, by decide⟩

/-- Counterexample for C3: a UTF-8 pool entry with first length byte 1 and
second length byte 2 before the payload bytes `"ab"` decodes to `"a"` (the
source uses the FIRST length byte), while the spec's rule (second byte is the
byte count) yields `"ab"`. -/
theorem claim3_counterexample :
    readStrings bufC3 = some ["a"] ∧ specUtf8Entry bufC3 40 0 = some "ab" ∧
    ("a" : String) ≠ "ab" := by
  refine ⟨by decide, by decide, by decide⟩

/-- Claim C3 (amended): with the UTF-8 flag set, the string-pool decoder reads
the FIRST 8-bit length byte `c` (the UTF-16 character count) at the entry and
decodes exactly `c` payload bytes starting two bytes later; the second length
byte (the byte count) is skipped without being used. -/
theorem claim3_amended (b : List Nat) (s off c : Nat)
    (h : readU8 b (s + off) = some c) :
    decodeStringEntry b s true off =
      Option.map bytesToString (readBytesList b (s + off + 2) c) := by
  unfold decodeStringEntry
  rw [h]
  cases hb : readBytesList b (s + off + 2) c <;> simp [hb]

/-- Witness for C3 (amended): at the concrete entry of `bufC3` the first
length byte is 1, so exactly one payload byte is decoded. -/
theorem claim3_witness :
    decodeStringEntry bufC3 40 true 0 =
      Option.map bytesToString (readBytesList bufC3 (40 + 0 + 2) 1) :=
  claim3_amended bufC3 40 0 1 (by decide)

/-- Counterexample for C4: `bufC4` is a well-formed buffer (pool `["a"]`)
whose start-element carries the nonnegative out-of-range name index 5; the
traversal ends in the out-of-bounds outcome (an unchecked `strings[5]` access,
undefined behavior in the source) — no `MalformedChunk` failure is reported. -/
theorem claim4_counterexample :
    readStrings bufC4 = some ["a"] ∧ traverseXml bufC4 = TravResult.oob := by
  refine ⟨by decide, by decide⟩

/-- Claim C4 (amended): in the start/end-element handlers a negative string
index yields the empty string, but a nonnegative index outside the decoded
pool leads to an unchecked out-of-bounds pool access (`none`, undefined
behavior in the source), not a reported `MalformedChunk` failure. -/
theorem claim4_amended (pool : List String) (idx : Nat) :
    (asI32 idx < 0 → resolveStringIndex pool idx = some "") ∧
    (0 ≤ asI32 idx → pool.length ≤ idx → resolveStringIndex pool idx = none) := by
  constructor
  · intro h
    unfold resolveStringIndex
    rw [if_neg (by omega)]
  · intro h1 h2
    unfold resolveStringIndex
    rw [if_pos h1]
    exact List.getElem?_eq_none h2

/-- Witness for C4 (amended): index `0xFFFFFFFF` (i.e. −1) resolves to the
empty string; index 5 against the one-string pool resolves to `none`. -/
theorem claim4_witness :
    resolveStringIndex ["a"] 4294967295 = some "" ∧
    resolveStringIndex ["a"] 5 = none :=
  ⟨(claim4_amended ["a"] 4294967295).1 (by decide),
   (claim4_amended ["a"] 5).2 (by decide) (by decide)⟩

/-- Claim C5: every traversal terminates with its iteration count bounded by
the buffer length: run with fuel `b.length` (one unit per loop pass, at least
8 bytes of forward progress each), the loop never exhausts its fuel, for every
input buffer — including buffers with no end-namespace chunk, where it stops
at the out-of-bounds outcome instead.  The only normal exit of `loopStep` is
reading an end-namespace tag. -/
theorem claim5 (b : List Nat) : isFuelOut (traverseXml b) = false := by
  unfold traverseXml
  split
  · rfl
  · next off heq =>
    by_cases hz : off = 0
    · simp [hz, isFuelOut]
    · rw [if_neg hz]
      split
      · rfl
      · next tag heqt =>
        exact isFuelOut_eq_false _
          (traverseLoop_no_fuelOut b b.length (off + 2) tag (by omega))

/-- Counterexample for C6: `bufC6` has valid magics and a declared chunk size
exactly equal to the buffer length (so the size does NOT exceed the length),
yet `getXmlChunkOffset` fails with 0 — the source tests `size <= chunkSize`.
`bufC6zero` has valid magics and chunk size 0 < length, and also yields 0. -/
theorem claim6_counterexample :
    readU32 bufC6 0 = some XML_IDENTIFIER ∧
    readU16 bufC6 8 = some XML_STRING_TABLE ∧
    readU32 bufC6 12 = some 36 ∧ bufC6.length = 36 ∧
    getXmlChunkOffset bufC6 = some 0 ∧
    readU32 bufC6zero 12 = some 0 ∧ bufC6zero.length = 36 ∧
    getXmlChunkOffset bufC6zero = some 0 := by
  refine ⟨by decide, by decide, by decide, by decide, by decide, by decide, by decide, by decide⟩

/-- Claim C6 (amended): when both magics are valid and the declared chunk size
is strictly below the buffer length, `getXmlChunkOffset` returns exactly
`header.chunkSize` (the `len − (len − chunkSize)` expression collapses); and
it returns the failure value 0 exactly when a magic is wrong, or the declared
chunk size is at least the buffer length, or the declared chunk size is itself
zero. -/
theorem claim6_amended (b : List Nat) (magic tableId csize : Nat)
    (h0 : readU32 b 0 = some magic) (h8 : readU16 b 8 = some tableId)
    (h12 : readU32 b 12 = some csize) :
    (magic = XML_IDENTIFIER → tableId = XML_STRING_TABLE → csize < b.length →
      getXmlChunkOffset b = some csize) ∧
    (getXmlChunkOffset b = some 0 ↔
      (magic ≠ XML_IDENTIFIER ∨ tableId ≠ XML_STRING_TABLE ∨ b.length ≤ csize ∨ csize = 0)) := by
  have hx : getXmlChunkOffset b =
      (if magic ≠ XML_IDENTIFIER then some 0
       else if tableId ≠ XML_STRING_TABLE then some 0
       else if b.length ≤ csize then some 0
       else some (b.length - (b.length - csize))) := by
    unfold getXmlChunkOffset
    rw [h0, h8, h12]
  constructor
  · intro hm ht hc
    rw [hx, if_neg (by simp [hm]), if_neg (by simp [ht]), if_neg (by omega)]
    congr 1
    omega
  · rw [hx]
    by_cases hm : magic = XML_IDENTIFIER
    · by_cases ht : tableId = XML_STRING_TABLE
      · by_cases hl : b.length ≤ csize
        · simp [hm, ht, hl]
        · by_cases hz : csize = 0
          · subst hz; simp [hm, ht, hl]
          · simp [hm, ht, hl, hz]
            omega
      · simp [ht]
    · simp [hm]

/-- Witness for C6 (amended): on `bufC1` (valid magics, chunk size 62 < 144)
the chunk offset is exactly 62. -/
theorem claim6_witness : getXmlChunkOffset bufC1 = some 62 :=
  (claim6_amended bufC1 XML_IDENTIFIER XML_STRING_TABLE 62
    (by decide) (by decide) (by decide)).1 rfl rfl (by decide)

/-- Counterexample for C7: at `TYPE_INT_DEC` with raw value `0xFFFFFFFF` the
source's `formatString("%d", raw)` renders the bits as a SIGNED int, giving
`"-1"`, not the decimal of the raw 32 bits (4294967295). -/
theorem claim7_counterexample :
    decodeAttrValue [] TYPE_INT_DEC 4294967295 0 = some "-1" ∧
    toString (4294967295 : Nat) = "4294967295" ∧ ("-1" : String) ≠ "4294967295" := by
  refine ⟨by decide, by decide, by decide⟩

/-- Claim C7 (amended): the attribute decoder maps each type tag to the spec's
table, except that `TYPE_INT_DEC` renders the raw 32 bits reinterpreted as a
SIGNED 32-bit integer (`%d`): NULL, REFERENCE, ATTRIBUTE, STRING (the pool
entry at the raw-value index, unchecked), FLOAT/DIMENSION/FRACTION empty,
DYNAMIC_REFERENCE, INT_DEC (signed), INT_HEX, INT_BOOLEAN, and `"unknown"`
for every other tag. -/
theorem claim7_amended (pool : List String) (raw idx : Nat) :
    decodeAttrValue pool TYPE_NULL raw idx
        = some (if raw = 0 then "<undefined>" else "<empty>") ∧
    decodeAttrValue pool TYPE_REFERENCE raw idx = some ("@res/0x" ++ hex8 raw) ∧
    decodeAttrValue pool TYPE_ATTRIBUTE raw idx = some ("@attr/0x" ++ hex8 raw) ∧
    decodeAttrValue pool TYPE_STRING raw idx = pool[idx]? ∧
    decodeAttrValue pool TYPE_FLOAT raw idx = some "" ∧
    decodeAttrValue pool TYPE_DIMENSION raw idx = some "" ∧
    decodeAttrValue pool TYPE_FRACTION raw idx = some "" ∧
    decodeAttrValue pool TYPE_DYNAMIC_REFERENCE raw idx = some ("@dyn/0x" ++ hex8 raw) ∧
    decodeAttrValue pool TYPE_INT_DEC raw idx = some (toString (asI32 raw)) ∧
    decodeAttrValue pool TYPE_INT_HEX raw idx = some ("0x" ++ hex8 raw) ∧
    decodeAttrValue pool TYPE_INT_BOOLEAN raw idx
        = some (if raw = RES_VALUE_TRUE then "true"
                else if raw = RES_VALUE_FALSE then "false" else "unknown") ∧
    (∀ t, t ≠ TYPE_NULL → t ≠ TYPE_REFERENCE → t ≠ TYPE_ATTRIBUTE → t ≠ TYPE_STRING →
      t ≠ TYPE_FLOAT → t ≠ TYPE_DIMENSION → t ≠ TYPE_FRACTION →
      t ≠ TYPE_DYNAMIC_REFERENCE → t ≠ TYPE_INT_DEC → t ≠ TYPE_INT_HEX →
      t ≠ TYPE_INT_BOOLEAN → decodeAttrValue pool t raw idx = some "unknown") := by
  refine ⟨?_, ?_, ?_, ?_, ?_, ?_, ?_, ?_, ?_, ?_, ?_, ?_⟩
  case refine_12 =>
    intro t h1 h2 h3 h4 h5 h6 h7 h8 h9 h10 h11
    simp [decodeAttrValue, h1, h2, h3, h4, h5, h6, h7, h8, h9, h10, h11]
  all_goals
    simp [decodeAttrValue, TYPE_NULL, TYPE_REFERENCE, TYPE_ATTRIBUTE, TYPE_STRING,
      TYPE_FLOAT, TYPE_DIMENSION, TYPE_FRACTION, TYPE_DYNAMIC_REFERENCE, TYPE_INT_DEC,
      TYPE_INT_HEX, TYPE_INT_BOOLEAN]

/-- Witness for C7 (amended): type tag 99 is none of the known tags and
renders as `"unknown"`. -/
theorem claim7_witness : decodeAttrValue ["p"] 99 5 0 = some "unknown" := by
  have h := claim7_amended ["p"] 5 0
  exact h.2.2.2.2.2.2.2.2.2.2.2 99 (by decide) (by decide) (by decide) (by decide)
    (by decide) (by decide) (by decide) (by decide) (by decide) (by decide) (by decide)

/-- Claim C8: whenever the computed XML chunk offset is zero, the traversal
dispatches exactly the single event `Invalid{"chunk offset is zero"}` and
returns without iterating any chunk. -/
theorem claim8 (b : List Nat) (h : getXmlChunkOffset b = some 0) :
    traverseXml b = TravResult.ok [XmlEvent.invalid "chunk offset is zero"] := by
  unfold traverseXml
  rw [h]
  rfl

/-- Witness for C8: the all-zero 36-byte buffer fails the magic test, its
chunk offset is 0, and its trace is exactly the single Invalid event. -/
theorem claim8_witness :
    traverseXml bufZeros = TravResult.ok [XmlEvent.invalid "chunk offset is zero"] :=
  claim8 bufZeros (by decide)

/-- Counterexample for C9: `bufC9bad` has valid XML magic and string-table
identifier and declares one pool string, but is truncated before the offset
table; the decode performs an out-of-bounds read (`none`, undefined behavior
in the source) instead of returning a sequence of length `numStrings`. -/
theorem claim9_counterexample :
    readU32 bufC9bad 0 = some XML_IDENTIFIER ∧
    readU16 bufC9bad 8 = some XML_STRING_TABLE ∧
    readU32 bufC9bad 16 = some 1 ∧
    readStrings bufC9bad = none := by
  refine ⟨by decide, by decide, by decide, by decide⟩

/-- Claim C9 (amended): for every buffer with valid magics on which the
string-pool decode succeeds (all reads in bounds), the decoded sequence has
length `numStrings` and its i-th entry is decoded from the i-th stored offset
entry. -/
theorem claim9_amended (b : List Nat) (n flags : Nat) (l : List String)
    (h0 : readU32 b 0 = some XML_IDENTIFIER)
    (h8 : readU16 b 8 = some XML_STRING_TABLE)
    (h16 : readU32 b 16 = some n)
    (h24 : readU32 b 24 = some flags)
    (hs : readStrings b = some l) :
    l.length = n ∧
    ∀ i, i < n → ∃ off, readU32 b (36 + 4 * i) = some off ∧
      l[i]? = decodeStringEntry b (36 + 4 * n) (utf8Of flags) off := by
  unfold readStrings at hs
  rw [h0, h8, h16, h24] at hs
  simp at hs
  split at hs
  · exact Option.noConfusion hs
  · next offs heq =>
    have hlen := readOffsets_length b n 36 offs heq
    have hdl := decodeAll_length b (36 + 4 * n) (utf8Of flags) offs l hs
    constructor
    · omega
    · intro i hi
      obtain ⟨off, ho1, ho2⟩ :=
        decodeAll_get b (36 + 4 * n) (utf8Of flags) offs l hs i (by omega)
      refine ⟨off, ?_, ho2⟩
      rw [← readOffsets_get b n 36 offs heq i hi]
      exact ho1

/-- Witness for C9 (amended): `bufC1` decodes to the three-string pool
`["e", "n", "abc"]`, with each entry decoded from its stored offset. -/
theorem claim9_witness :
    (["e", "n", "abc"] : List String).length = 3 ∧
    (∀ i, i < 3 → ∃ off, readU32 bufC1 (36 + 4 * i) = some off ∧
      (["e", "n", "abc"] : List String)[i]? =
        decodeStringEntry bufC1 (36 + 4 * 3) (utf8Of 256) off) :=
  claim9_amended bufC1 3 256 ["e", "n", "abc"]
    (by decide) (by decide) (by decide) (by decide) (by decide)

/-- Claim C10: when the attribute fold of `handleAttributes` processes records
whose names decode to the same (nonempty) string, the map keeps only the value
of the LAST such record: for any decoded record sequence split as
`l1 ++ (k, v) :: l2` with no further record named `k` in `l2`, the lookup of
`k` in the accumulated map is `v`. -/
theorem claim10 (m : List (String × String)) (l1 l2 : List (String × String))
    (k v : String) (hk : k ≠ "") (h2 : ∀ p ∈ l2, p.1 ≠ k) :
    mapLookup (attrAccum m (l1 ++ (k, v) :: l2)) k = some v := by
  rw [attrAccum_append, attrAccum_cons]
  rw [mapLookup_attrAccum_ne _ _ _ h2]
  rw [if_neg hk]
  exact mapLookup_mapInsert_self _ k v

/-- Witness for C10: two records both named `"n"` collapse to one map entry
holding the second value, both at the fold level and end to end on `bufC10`,
whose start-element has two records but a one-entry attribute map. -/
theorem claim10_witness :
    mapLookup (attrAccum [] ([("n", "abc")] ++ ("n", "0x00000000") :: [])) "n"
        = some "0x00000000" ∧
    (attrAccum [] [("n", "abc"), ("n", "0x00000000")]).length = 1 ∧
    traverseXml bufC10 =
      TravResult.ok [XmlEvent.start "e" [("n", "0x00000000")], XmlEvent.endTag "e"] :=
  ⟨claim10 [] [("n", "abc")] [] "n" "0x00000000" (by decide) (by simp),
   by decide, by decide⟩
